import Mathlib

/-
Verification of the transfer-and-upgrade engine of the borg repository
against its natural-language specification.

The repository ships only the externally observable test harness
(src/borg/testsuite/archiver/transfer_cmd.py); the engine itself
(transfer command, the From12To20 upgrader, the item model) is not part
of the sources available here.  Following the specification (spec.md,
sections 2-7) and the behaviour pinned by the test harness, the data
model and the operations are modelled below as executable Lean
definitions, and the specified properties are proved about them.
-/

namespace Borg

/-- Byte sequences (file data, xattr names and values, hlid tokens) are
modelled as lists of naturals below 256. -/
abbrev Bytes := List Nat

/-- Modelled from the spec (section 4.1): a chunk reference as it occurs in
an item chunk list: the content id of the chunk together with the chunk
byte size, so that `get_size(content_id)` is available to the engine. -/
structure ChunkRef where
  id : Nat
  csize : Nat
deriving DecidableEq, Repr, Inhabited

/-- Modelled from the spec (sections 3 and 4.3): a timestamp is a local
clock reading in microseconds together with its UTC offset in
microseconds.  The legacy format stores only the naive local reading;
the current format stores a UTC instant with explicit zero offset. -/
structure Timestamp where
  micros : Int
  offset : Int
deriving DecidableEq, Repr, Inhabited

/-- The absolute instant denoted by a timestamp: its local clock reading
minus its UTC offset, in microseconds since the epoch. -/
def Timestamp.instant (t : Timestamp) : Int := t.micros - t.offset

/-- Modelled from the spec: parsing a naive local timestamp with an
explicit UTC offset appended (the helpers.time.parse_timestamp used by
the test harness) yields an offset-aware timestamp. -/
def parse_timestamp (naive : Int) (tzoffset : Int) : Timestamp :=
  ⟨naive, tzoffset⟩

/-- File mode bit masks, as in the stat module used by the source. -/
def S_IFMT : Nat := 61440

/-- Regular-file mode bits. -/
def S_IFREG : Nat := 32768

/-- Symlink mode bits. -/
def S_IFLNK : Nat := 40960

/-- Directory mode bits. -/
def S_IFDIR : Nat := 16384

/-- Mode test for regular files. -/
def S_ISREG (m : Nat) : Bool := Nat.land m S_IFMT == S_IFREG

/-- Mode test for symlinks. -/
def S_ISLNK (m : Nat) : Bool := Nat.land m S_IFMT == S_IFLNK

/-- The UF_NODUMP bsd flag, as in the stat module used by the source. -/
def UF_NODUMP : Nat := 1

/-- Modelled from the spec (sections 3 and 4.2): one filesystem-entry
record of a legacy (borg 1.2) archive.  Optional attributes are absent
when the legacy item does not carry the key; the legacy hardlink
encoding is asymmetric: a master carries the chunk list and is flagged
`hardlink_master`, a slave is a regular-file item whose `source` points
at the master path, with `size = 0` and no chunk list.  Timestamps are
naive local clock readings in microseconds. -/
structure LegacyItem where
  path : String
  mode : Nat
  uid : Option Nat
  gid : Option Nat
  user : Option String
  group : Option String
  mtime : Option Int
  ctime : Option Int
  atime : Option Int
  chunks : Option (List ChunkRef)
  size : Option Nat
  bsdflags : Option Nat
  xattrs : Option (List (Bytes × Bytes))
  rdev : Option Nat
  source : Option String
  hardlink_master : Option Bool
deriving DecidableEq, Repr, Inhabited

/-- Modelled from the spec (section 3): one filesystem-entry record of a
current-format archive.  Hardlink identity is the symmetric `hlid`
token; `source` is only used for symlink targets; there is no
`hardlink_master` key and no `linktarget` key distinct from `source`.
Absence of information is key absence, modelled by `Option.none`. -/
structure Item where
  path : String
  mode : Nat
  uid : Option Nat
  gid : Option Nat
  user : Option String
  group : Option String
  mtime : Option Timestamp
  ctime : Option Timestamp
  atime : Option Timestamp
  chunks : Option (List ChunkRef)
  size : Option Nat
  hlid : Option Bytes
  bsdflags : Option Nat
  xattrs : Option (List (Bytes × Bytes))
  rdev : Option Nat
  source : Option String
deriving DecidableEq, Repr, Inhabited

/-- Modelled from the spec (section 3): a legacy archive: name, content
id, naive local `start`/`time` timestamps, and the ordered item
sequence. -/
structure LegacyArchive where
  id : Nat
  name : String
  start : Int
  time : Int
  items : List LegacyItem
deriving DecidableEq, Repr, Inhabited

/-- Modelled from the spec (section 3): a current-format archive: name,
content id, offset-aware `start`/`time` timestamps, and the ordered item
sequence. -/
structure Archive where
  id : Nat
  name : String
  start : Timestamp
  time : Timestamp
  items : List Item
deriving DecidableEq, Repr, Inhabited

/-- The dictionary value type of a serialized item: every stored value is
one of these; `null` is the unknown marker that the current format must
never store. -/
inductive DVal where
  | null
  | dint (n : Int)
  | dstr (s : String)
  | dbytes (b : Bytes)
  | dchunks (cs : List ChunkRef)
  | dxattrs (xs : List (Bytes × Bytes))
  | dts (t : Timestamp)
deriving DecidableEq, Repr

/-- One optional dictionary entry: present exactly when the field is
present on the item. -/
def optEntry (k : String) (f : α → DVal) : Option α → List (String × DVal)
  | none => []
  | some v => [(k, f v)]

/-- Modelled from the spec (section 3) and the test harness
(item.as_dict): the dictionary form of a stored item.  A key occurs
exactly when the attribute is present; required keys `path` and `mode`
always occur. -/
def Item.as_dict (it : Item) : List (String × DVal) :=
  [("path", .dstr it.path), ("mode", .dint it.mode)]
  ++ optEntry "uid" (fun n : Nat => .dint n) it.uid
  ++ optEntry "gid" (fun n : Nat => .dint n) it.gid
  ++ optEntry "user" (fun s => .dstr s) it.user
  ++ optEntry "group" (fun s => .dstr s) it.group
  ++ optEntry "mtime" (fun t => .dts t) it.mtime
  ++ optEntry "ctime" (fun t => .dts t) it.ctime
  ++ optEntry "atime" (fun t => .dts t) it.atime
  ++ optEntry "chunks" (fun cs => .dchunks cs) it.chunks
  ++ optEntry "size" (fun n : Nat => .dint n) it.size
  ++ optEntry "hlid" (fun b => .dbytes b) it.hlid
  ++ optEntry "bsdflags" (fun n : Nat => .dint n) it.bsdflags
  ++ optEntry "xattrs" (fun xs => .dxattrs xs) it.xattrs
  ++ optEntry "rdev" (fun n : Nat => .dint n) it.rdev
  ++ optEntry "source" (fun s => .dstr s) it.source

/-- The set of keys present in the dictionary form of an item. -/
def Item.keys (it : Item) : List String := it.as_dict.map Prod.fst

/-- Modelled from the spec (section 4.3): timestamp normalization of the
From12To20 upgrader: a naive local reading together with the known
source UTC offset becomes the equivalent explicit UTC instant with
explicit zero offset, in microseconds. -/
def convertTs (off : Int) (naive : Int) : Timestamp :=
  ⟨naive - off, 0⟩

/-- Modelled from the spec (section 4.3): sentinel normalization of the
legacy `bsdflags` attribute: the legacy unset sentinel zero maps to key
absence, any other recorded value is kept exactly. -/
def convertFlags : Option Nat → Option Nat
  | some 0 => none
  | x => x

/-- Modelled from the spec (section 4.3): the per-item field conversion
of the From12To20 upgrader, before hardlink migration: timestamps are
normalized to UTC, the bsdflags sentinel is normalized to key absence,
and every other attribute is carried over; legacy null values are
already absent keys in this model. -/
def convertItem (off : Int) (it : LegacyItem) : Item :=
  { path := it.path
    mode := it.mode
    uid := it.uid
    gid := it.gid
    user := it.user
    group := it.group
    mtime := it.mtime.map (convertTs off)
    ctime := it.ctime.map (convertTs off)
    atime := it.atime.map (convertTs off)
    chunks := it.chunks
    size := it.size
    hlid := none
    bsdflags := convertFlags it.bsdflags
    xattrs := it.xattrs
    rdev := it.rdev
    source := it.source }

/-- A legacy hardlink slave: a regular-file item whose `source` links
back to its hardlink master path. -/
def LegacyItem.isHardlinkSlave (it : LegacyItem) : Bool :=
  S_ISREG it.mode && it.source.isSome

/-- A legacy hardlink master: an item carrying the master flag. -/
def LegacyItem.isHardlinkMaster (it : LegacyItem) : Bool :=
  it.hardlink_master == some true

/-- Modelled from the spec (section 4.2): the deterministically derived
256-bit hardlink-group identity token: 32 bytes derived from the legacy
master path of the group. -/
def hlidOf (p : String) : Bytes :=
  (List.range 32).map (fun i =>
    (p.data.foldl (fun acc c => (acc * 31 + c.toNat + i) % 256) (i + p.length)) % 256)

/-- Modelled from the spec (section 4.2): the donor of a hardlink group:
the legacy member that actually carried the chunk list (the former
master), located by the master path. -/
def findDonor (items : List LegacyItem) (p : String) : Option LegacyItem :=
  items.find? (fun it => it.path == p && it.chunks.isSome)

/-- Modelled from the spec (sections 4.2 and 4.3): the full per-item
transformation of the From12To20 upgrader over the archive-scoped
hardlink state (the list of all legacy items of the archive).  A
hardlink slave receives the group hlid, the donor chunk list and size,
and its path-based `source` linkage is cleared; a hardlink master
receives the group hlid; the missing donor of a slave is a fatal
integrity error. -/
def transformItem (items : List LegacyItem) (off : Int) (it : LegacyItem) :
    Except String Item :=
  if it.isHardlinkSlave then
    match it.source with
    | none => .error ("IntegrityError: hardlink slave without source: " ++ it.path)
    | some p =>
      match findDonor items p with
      | none => .error ("IntegrityError: hardlink master not found: " ++ p)
      | some donor =>
        .ok { convertItem off it with hlid := some (hlidOf p), chunks := donor.chunks,
                                      size := donor.size, source := none }
  else if it.isHardlinkMaster then
    .ok { convertItem off it with hlid := some (hlidOf it.path) }
  else
    .ok (convertItem off it)

/-- Modelled from the spec (sections 4.3 and 3): size backfill: an item
with a chunk list carries the precomputed size, the sum of the
referenced chunk sizes; an item without a chunk list is unchanged. -/
def sizeBackfill (it : Item) : Item :=
  match it.chunks with
  | some cs => { it with size := some ((cs.map ChunkRef.csize).sum) }
  | none => it

/-- Pairwise hardlink-group consistency of two items: items sharing a
present hlid must agree on chunks and size. -/
def hlidOk (a b : Item) : Bool :=
  match a.hlid, b.hlid with
  | some h1, some h2 => h1 != h2 || (a.chunks == b.chunks && a.size == b.size)
  | _, _ => true

/-- Modelled from the spec (section 4.2, ambiguity policy): the
dedup-mismatch validation: every two items of the archive claiming the
same hlid must agree on chunks and size. -/
def checkHardlinkConsistency (items : List Item) : Bool :=
  items.all (fun a => items.all (fun b => hlidOk a b))

/-- Effectful map over a list in the Except monad, failing on the first
error. -/
def mapExcept (f : α → Except ε β) : List α → Except ε (List β)
  | [] => .ok []
  | a :: as =>
    match f a, mapExcept f as with
    | .ok b, .ok bs => .ok (b :: bs)
    | .error e, _ => .error e
    | .ok _, .error e => .error e

/-- Modelled from the spec (sections 4.2, 4.3 and 7): the From12To20
("LegacyToCurrent") archive upgrader: every item is transformed over the
archive-scoped hardlink state, sizes are backfilled from chunk lists,
archive timestamps are normalized to UTC, and the dedup-mismatch
validation of section 4.2 is enforced before the archive is accepted. -/
def From12To20 (off : Int) (a : LegacyArchive) : Except String Archive :=
  match mapExcept (transformItem a.items off) a.items with
  | .error e => .error e
  | .ok its0 =>
    let its := its0.map sizeBackfill
    if checkHardlinkConsistency its then
      .ok { id := a.id, name := a.name,
            start := convertTs off a.start,
            time := convertTs off a.time,
            items := its }
    else
      .error "DedupMismatchError"

/-- Modelled from the spec (sections 4.3 and 8): the identity strategy
used for same-format transfers.  Every strategy implements the shared
transformation contract, so size backfill and the dedup-mismatch
validation still apply; on a well-formed current archive both are
no-ops. -/
def identityUpgrade (a : Archive) : Except String Archive :=
  let its := a.items.map sizeBackfill
  if checkHardlinkConsistency its then
    .ok { a with items := its }
  else
    .error "DedupMismatchError"

/-- Per-archive outcome of a transfer, as enumerated by the
TransferReport of the spec (section 6). -/
inductive Outcome where
  | committed
  | skippedExisting
  | dryRunOnly
  | aborted (msg : String)
deriving DecidableEq, Repr

/-- One TransferReport entry (spec section 6): archive name, outcome,
item count, number of new chunks, bytes written. -/
structure ReportEntry where
  name : String
  outcome : Outcome
  itemCount : Nat
  newChunks : Nat
  bytesWritten : Nat
deriving DecidableEq, Repr

/-- Modelled from the spec (sections 3 and 4.1): a destination
repository: the manifest (ordered committed archives) and the
reference-counted content-addressed chunk store, as pairs of content id
and reference count. -/
structure Repo where
  manifest : List Archive
  store : List (Nat × Nat)
deriving DecidableEq, Repr

/-- All chunk references of an archive, in item order. -/
def Archive.chunkRefs (a : Archive) : List ChunkRef :=
  (a.items.map (fun it => it.chunks.getD [])).flatten

/-- Whether the store already holds a chunk with the given content id. -/
def storeHas (store : List (Nat × Nat)) (i : Nat) : Bool :=
  store.any (fun e => e.1 == i)

/-- Record one reference to a content id in the store: an existing id
gets its reference count incremented, a new id is stored once with
count one (spec section 4.1, idempotent put). -/
def bumpRef (store : List (Nat × Nat)) (i : Nat) : List (Nat × Nat) :=
  if storeHas store i then
    store.map (fun e => if e.1 == i then (e.1, e.2 + 1) else e)
  else
    store ++ [(i, 1)]

/-- Record references to all the given content ids, in order. -/
def writeChunks (store : List (Nat × Nat)) (ids : List Nat) : List (Nat × Nat) :=
  ids.foldl bumpRef store

/-- Deduplicate chunk references by content id, keeping the first
occurrence of each id. -/
def dedupRefs (l : List ChunkRef) : List ChunkRef :=
  l.foldl (fun acc c => if acc.any (fun d => d.id == c.id) then acc else acc ++ [c]) []

/-- Modelled from the spec (section 4.4): transfer of one source archive
into the destination repository.  An archive already present in the
destination (by content id) is skipped; an upgrader failure aborts that
archive only; otherwise the would-be new chunks are computed against the
destination store, and the archive is committed atomically unless this
is a dry run, which mutates nothing. -/
def transferOne (upg : LegacyArchive → Except String Archive) (dryRun : Bool)
    (repo : Repo) (src : LegacyArchive) : Repo × ReportEntry :=
  if (repo.manifest.map Archive.id).contains src.id then
    (repo, ⟨src.name, .skippedExisting, 0, 0, 0⟩)
  else
    match upg src with
    | .error e => (repo, ⟨src.name, .aborted e, 0, 0, 0⟩)
    | .ok arch =>
      let refs := arch.chunkRefs
      let newRefs := (dedupRefs refs).filter (fun c => !storeHas repo.store c.id)
      let bytes := (newRefs.map ChunkRef.csize).sum
      if dryRun then
        (repo, ⟨src.name, .dryRunOnly, arch.items.length, newRefs.length, bytes⟩)
      else
        ({ manifest := repo.manifest ++ [arch],
           store := writeChunks repo.store (refs.map ChunkRef.id) },
         ⟨src.name, .committed, arch.items.length, newRefs.length, bytes⟩)

/-- Modelled from the spec (sections 4.4 and 6): the transfer operation:
source archives are processed one at a time in manifest order; the
returned report has one entry per source archive. -/
def transfer (upg : LegacyArchive → Except String Archive) (dryRun : Bool)
    (repo : Repo) : List LegacyArchive → Repo × List ReportEntry
  | [] => (repo, [])
  | s :: rest =>
    let step := transferOne upg dryRun repo s
    let next := transfer upg dryRun step.1 rest
    (next.1, step.2 :: next.2)

/-- JSON values as they occur in the per-item listing records. -/
inductive JVal where
  | null
  | jstr (s : String)
  | jint (n : Int)
deriving DecidableEq, Repr

/-- Rendering of an hlid token in the listing: the empty string when the
item has no hlid, a non-empty digit string otherwise. -/
def hlidText : Option Bytes → String
  | none => ""
  | some h => String.join (h.map (fun b => toString b))

/-- The user value of the per-item JSON listing record: the resolved
user name when the item carries one, the string form of the numeric
uid otherwise. -/
def listingUser (it : Item) : JVal :=
  match it.user with
  | some u => .jstr u
  | none =>
    match it.uid with
    | some n => .jstr (toString n)
    | none => .null

/-- The group value of the per-item JSON listing record: the resolved
group name when the item carries one, the string form of the numeric
gid otherwise. -/
def listingGroup (it : Item) : JVal :=
  match it.group with
  | some g => .jstr g
  | none =>
    match it.gid with
    | some n => .jstr (toString n)
    | none => .null

/-- Modelled from the spec (section 6) and the expectations pinned by
the repository test harness: the per-item JSON listing record of the
`list --json-lines` command.  The formatter tweaks values for
printability: `flags` is the bsdflags value or null, `hlid`, `source`
and `linktarget` fall back to the empty string, `size` falls back to
zero, and `user`/`group` fall back to the string form of the numeric
id when the item carries no account name. -/
def listingRecord (it : Item) : List (String × JVal) :=
  [("path", .jstr it.path),
   ("uid", match it.uid with | some n => .jint n | none => .null),
   ("gid", match it.gid with | some n => .jint n | none => .null),
   ("user", listingUser it),
   ("group", listingGroup it),
   ("flags", match it.bsdflags with | some n => .jint n | none => .null),
   ("hlid", .jstr (hlidText it.hlid)),
   ("source", .jstr (it.source.getD "")),
   ("linktarget", .jstr (it.source.getD "")),
   ("size", .jint (it.size.getD 0))]

/-- The timezone offset of the legacy test repository, +01:00, in
microseconds (repo12_tzoffset of the test harness). -/
def off12 : Int := 3600000000

/-- A baseline legacy regular-file item, shared by the concrete legacy
test items below: mode 0o100644, numeric and resolved ownership, naive
local timestamps. -/
def legacyFile (p : String) : LegacyItem :=
  { path := p, mode := 33188, uid := some 1000, gid := some 1000,
    user := some "user", group := some "group",
    mtime := some 1700000001000000, ctime := some 1700000002000000,
    atime := none, chunks := none, size := none, bsdflags := none,
    xattrs := none, rdev := none, source := none, hardlink_master := none }

/-- The legacy hardlink master of the test data: 17 bytes of content in
one chunk, flagged as hardlink master. -/
def legacyHardlink1 : LegacyItem :=
  { legacyFile "tmp/borgtest/hardlink1" with
    chunks := some [⟨1, 17⟩], size := some 17, hardlink_master := some true }

/-- The legacy hardlink slave of the test data: same inode as the
master, stored with size zero, no chunk list, and a path-based source
link back to the master. -/
def legacyHardlink2 : LegacyItem :=
  { legacyFile "tmp/borgtest/hardlink2" with
    size := some 0, source := some "tmp/borgtest/hardlink1" }

/-- The legacy item whose bsdflags were never recorded: the legacy
sentinel zero. -/
def legacyWithoutFlags : LegacyItem :=
  { legacyFile "tmp/borgtest/without_flags" with
    chunks := some [⟨2, 5⟩], size := some 5, bsdflags := some 0 }

/-- The legacy item with bsdflags explicitly set to UF_NODUMP. -/
def legacyWithFlags : LegacyItem :=
  { legacyFile "tmp/borgtest/with_flags" with
    chunks := some [⟨3, 5⟩], size := some 5, bsdflags := some UF_NODUMP }

/-- The legacy item archived without xattrs. -/
def legacyWithoutXattrs : LegacyItem :=
  { legacyFile "tmp/borgtest/file_without_xattrs" with
    chunks := some [⟨4, 9⟩], size := some 9 }

/-- The legacy item archived with two xattrs, b"key1" mapping to
b"value" and b"key2" mapping to the empty byte string. -/
def legacyWithXattrs : LegacyItem :=
  { legacyFile "tmp/borgtest/file_with_xattrs" with
    chunks := some [⟨5, 9⟩], size := some 9,
    xattrs := some [([107, 101, 121, 49], [118, 97, 108, 117, 101]),
                    ([107, 101, 121, 50], [])] }

/-- The legacy item with only numeric ownership 54321 and no resolvable
account name. -/
def legacyStrangeUidGid : LegacyItem :=
  { legacyFile "tmp/borgtest/strange_uid_gid" with
    uid := some 54321, gid := some 54321, user := none, group := none,
    chunks := some [⟨6, 11⟩], size := some 11 }

/-- The concrete legacy test archive, mirroring the archive1 contents of
the repository test data that the claims quantify over. -/
def legacyArchive1 : LegacyArchive :=
  { id := 101, name := "archive1",
    start := 1700000100000000, time := 1700000200000000,
    items := [legacyHardlink1, legacyHardlink2, legacyWithoutFlags,
              legacyWithFlags, legacyWithoutXattrs, legacyWithXattrs,
              legacyStrangeUidGid] }

/-- The result of upgrading the concrete legacy test archive through the
From12To20 upgrader. -/
def demoOut : Archive :=
  (From12To20 off12 legacyArchive1).toOption.getD default

/-- Item number `i` of the upgraded concrete test archive. -/
def demoItem (i : Nat) : Item :=
  demoOut.items.getD i default

/-- The result of the per-item transformation of the legacy item whose
bsdflags were never recorded. -/
def withoutFlagsOut : Item :=
  (transformItem [] off12 legacyWithoutFlags).toOption.getD default

/-- The no-size-backfill invariant of the current item format: an item
with a non-empty chunk list carries the precomputed size, the sum of
the referenced chunk sizes. -/
def sizeInvariant (it : Item) : Prop :=
  ∀ cs, it.chunks = some cs → cs ≠ [] →
    it.size = some ((cs.map ChunkRef.csize).sum)

/-- A membership of an optional dictionary entry comes from a present
value. -/
theorem mem_optEntry {α : Type} {k : String} {f : α → DVal} {o : Option α}
    {kv : String × DVal} (h : kv ∈ optEntry k f o) :
    ∃ v, o = some v ∧ kv = (k, f v) := by
  cases o with
  | none => simp [optEntry] at h
  | some v =>
    simp [optEntry] at h
    exact ⟨v, rfl, by simp [h]⟩

/-- Every key of the dictionary form of an item is one of the known
attribute names, and an optional key occurs only when the attribute is
present. -/
theorem mem_keys_cases (it : Item) (k : String) (h : k ∈ it.keys) :
    k = "path" ∨ k = "mode" ∨
    (k = "uid" ∧ it.uid.isSome = true) ∨ (k = "gid" ∧ it.gid.isSome = true) ∨
    (k = "user" ∧ it.user.isSome = true) ∨ (k = "group" ∧ it.group.isSome = true) ∨
    (k = "mtime" ∧ it.mtime.isSome = true) ∨ (k = "ctime" ∧ it.ctime.isSome = true) ∨
    (k = "atime" ∧ it.atime.isSome = true) ∨ (k = "chunks" ∧ it.chunks.isSome = true) ∨
    (k = "size" ∧ it.size.isSome = true) ∨ (k = "hlid" ∧ it.hlid.isSome = true) ∨
    (k = "bsdflags" ∧ it.bsdflags.isSome = true) ∨ (k = "xattrs" ∧ it.xattrs.isSome = true) ∨
    (k = "rdev" ∧ it.rdev.isSome = true) ∨ (k = "source" ∧ it.source.isSome = true) := by
  obtain ⟨kv, hkv, rfl⟩ := List.mem_map.mp h
  simp only [Item.as_dict, List.append_assoc, List.mem_append, List.mem_cons,
    List.not_mem_nil, or_false, or_assoc] at hkv
  rcases hkv with h1 | h1 | h1 | h1 | h1 | h1 | h1 | h1 | h1 | h1 | h1 | h1 | h1 | h1 | h1 | h1
  all_goals
    first
      | (subst h1; simp)
      | (obtain ⟨v, hv, hkv1⟩ := mem_optEntry h1; subst hkv1; simp [hv])

/-- No value of the dictionary form of an item is the null marker. -/
theorem as_dict_no_null (it : Item) (kv : String × DVal) (h : kv ∈ it.as_dict) :
    kv.2 ≠ DVal.null := by
  simp only [Item.as_dict, List.append_assoc, List.mem_append, List.mem_cons,
    List.not_mem_nil, or_false, or_assoc] at h
  rcases h with h1 | h1 | h1 | h1 | h1 | h1 | h1 | h1 | h1 | h1 | h1 | h1 | h1 | h1 | h1 | h1
  all_goals
    first
      | (subst h1; exact fun hc => DVal.noConfusion hc)
      | (obtain ⟨v, hv, hkv1⟩ := mem_optEntry h1; subst hkv1;
         exact fun hc => DVal.noConfusion hc)

/-- An absent bsdflags attribute means no bsdflags key in the dictionary
form. -/
theorem bsdflags_key_absent {it : Item} (h : it.bsdflags = none) :
    "bsdflags" ∉ it.keys := by
  intro hk
  have hc := mem_keys_cases it _ hk
  simp [h] at hc

/-- A present bsdflags attribute means a bsdflags key in the dictionary
form. -/
theorem bsdflags_key_present {it : Item} {v : Nat} (h : it.bsdflags = some v) :
    "bsdflags" ∈ it.keys := by
  simp [Item.keys, Item.as_dict, optEntry, h]

/-- A successful per-item transformation only rewrites the hlid, chunk
list, size and source of the converted item; every other attribute is
the field conversion of the legacy attribute. -/
theorem transformItem_ok_shape {items : List LegacyItem} {off : Int}
    {it : LegacyItem} {o : Item} (h : transformItem items off it = Except.ok o) :
    ∃ hl ck sz sr, o = { convertItem off it with
                         hlid := hl, chunks := ck, size := sz, source := sr } := by
  unfold transformItem at h
  split at h
  · split at h
    · exact Except.noConfusion h
    · split at h
      · exact Except.noConfusion h
      · simp only [Except.ok.injEq] at h
        exact ⟨_, _, _, _, h.symm⟩
  · split at h
    · simp only [Except.ok.injEq] at h
      exact ⟨_, _, _, _, h.symm⟩
    · simp only [Except.ok.injEq] at h
      exact ⟨_, _, _, _, h.symm⟩

/-- The size backfill only rewrites the size of an item. -/
theorem sizeBackfill_shape (x : Item) :
    ∃ s, sizeBackfill x = { x with size := s } := by
  cases x with
  | mk path mode uid gid user group mtime ctime atime chunks size hlid bsdflags xattrs rdev source =>
    cases chunks with
    | none => exact ⟨size, rfl⟩
    | some cs => exact ⟨some ((cs.map ChunkRef.csize).sum), rfl⟩

/-- The size backfill does not change the chunk list. -/
theorem sizeBackfill_chunks (x : Item) : (sizeBackfill x).chunks = x.chunks := by
  obtain ⟨s, hs⟩ := sizeBackfill_shape x
  rw [hs]

/-- An item with a chunk list carries the precomputed size after the
size backfill. -/
theorem sizeBackfill_size {x : Item} {cs : List ChunkRef} (h : x.chunks = some cs) :
    (sizeBackfill x).size = some ((cs.map ChunkRef.csize).sum) := by
  simp [sizeBackfill, h]

/-- Every item is well-sized after the size backfill. -/
theorem sizeBackfill_invariant (x : Item) : sizeInvariant (sizeBackfill x) := by
  intro cs hcs _
  have hx : x.chunks = some cs := by rw [← sizeBackfill_chunks x]; exact hcs
  exact sizeBackfill_size hx

/-- A successful effectful map preserves the list length. -/
theorem mapExcept_ok_length {α β ε : Type} {f : α → Except ε β} {l : List α}
    {l2 : List β} (h : mapExcept f l = Except.ok l2) : l2.length = l.length := by
  induction l generalizing l2 with
  | nil =>
    simp only [mapExcept, Except.ok.injEq] at h
    rw [← h]
    rfl
  | cons a as ih =>
    unfold mapExcept at h
    cases hf : f a with
    | error e => rw [hf] at h; exact Except.noConfusion h
    | ok b =>
      rw [hf] at h
      cases hm : mapExcept f as with
      | error e => rw [hm] at h; exact Except.noConfusion h
      | ok bs =>
        rw [hm] at h
        simp only [Except.ok.injEq] at h
        rw [← h]
        simp [ih hm]

/-- A successful effectful map acts pointwise. -/
theorem mapExcept_ok_get {α β ε : Type} {f : α → Except ε β} {l : List α}
    {l2 : List β} (h : mapExcept f l = Except.ok l2) :
    ∀ i (hi : i < l.length) (hi2 : i < l2.length),
      f (l.get ⟨i, hi⟩) = Except.ok (l2.get ⟨i, hi2⟩) := by
  induction l generalizing l2 with
  | nil => intro i hi _; exact absurd hi (by simp)
  | cons a as ih =>
    unfold mapExcept at h
    cases hf : f a with
    | error e => rw [hf] at h; exact Except.noConfusion h
    | ok b =>
      rw [hf] at h
      cases hm : mapExcept f as with
      | error e => rw [hm] at h; exact Except.noConfusion h
      | ok bs =>
        rw [hm] at h
        simp only [Except.ok.injEq] at h
        subst h
        intro i hi hi2
        cases i with
        | zero => simpa using hf
        | succ n =>
          exact ih hm n (Nat.lt_of_succ_lt_succ hi) (Nat.lt_of_succ_lt_succ hi2)

/-- Every element of a successful effectful map comes from an element of
the input list. -/
theorem mapExcept_ok_mem {α β ε : Type} {f : α → Except ε β} {l : List α}
    {l2 : List β} (h : mapExcept f l = Except.ok l2) :
    ∀ b ∈ l2, ∃ a ∈ l, f a = Except.ok b := by
  induction l generalizing l2 with
  | nil =>
    simp only [mapExcept, Except.ok.injEq] at h
    subst h
    intro b hb
    exact absurd hb (by simp)
  | cons a as ih =>
    unfold mapExcept at h
    cases hf : f a with
    | error e => rw [hf] at h; exact Except.noConfusion h
    | ok b0 =>
      rw [hf] at h
      cases hm : mapExcept f as with
      | error e => rw [hm] at h; exact Except.noConfusion h
      | ok bs =>
        rw [hm] at h
        simp only [Except.ok.injEq] at h
        subst h
        intro b hb
        rcases List.mem_cons.mp hb with hb | hb
        · exact ⟨a, List.mem_cons_self a as, by rw [hf, hb]⟩
        · obtain ⟨a2, ha2, hfa2⟩ := ih hm b hb
          exact ⟨a2, List.mem_cons_of_mem a ha2, hfa2⟩

/-- Structure of a successful run of the From12To20 upgrader: the items
are the per-item transformation followed by size backfill, the
dedup-mismatch validation holds of them, and the archive timestamps are
normalized. -/
theorem From12To20_ok {off : Int} {a : LegacyArchive} {out : Archive}
    (h : From12To20 off a = Except.ok out) :
    ∃ its0, mapExcept (transformItem a.items off) a.items = Except.ok its0 ∧
      out.items = its0.map sizeBackfill ∧
      checkHardlinkConsistency (its0.map sizeBackfill) = true ∧
      out.start = convertTs off a.start ∧ out.time = convertTs off a.time ∧
      out.id = a.id ∧ out.name = a.name := by
  unfold From12To20 at h
  cases hm : mapExcept (transformItem a.items off) a.items with
  | error e => rw [hm] at h; exact Except.noConfusion h
  | ok its0 =>
    rw [hm] at h
    simp only at h
    split at h
    case isTrue hc =>
      simp only [Except.ok.injEq] at h
      subst h
      exact ⟨its0, rfl, rfl, hc, rfl, rfl, rfl, rfl⟩
    case isFalse hc => exact Except.noConfusion h

/-- Soundness of the dedup-mismatch validation: whenever it accepts a
list of items, any two members sharing a present hlid agree on chunks
and size. -/
theorem checkHardlinkConsistency_sound {l : List Item}
    (h : checkHardlinkConsistency l = true) :
    ∀ x ∈ l, ∀ y ∈ l, ∀ hl, x.hlid = some hl → y.hlid = some hl →
      x.chunks = y.chunks ∧ x.size = y.size := by
  intro x hx y hy hl hxh hyh
  unfold checkHardlinkConsistency at h
  rw [List.all_eq_true] at h
  have h1 := h x hx
  rw [List.all_eq_true] at h1
  have h2 := h1 y hy
  unfold hlidOk at h2
  rw [hxh, hyh] at h2
  simp only [bne_self_eq_false, Bool.false_or, Bool.and_eq_true, beq_iff_eq] at h2
  exact h2

/-- Structure of a successful run of the identity strategy: the items
are the size backfill of the input items. -/
theorem identityUpgrade_ok {a : Archive} {out : Archive}
    (h : identityUpgrade a = Except.ok out) :
    out.items = a.items.map sizeBackfill := by
  unfold identityUpgrade at h
  simp only at h
  split at h
  · simp only [Except.ok.injEq] at h
    subst h
    rfl
  · exact Except.noConfusion h

/-- A dry-run transfer of one archive leaves the destination repository
unchanged. -/
theorem transferOne_dry_fst (upg : LegacyArchive → Except String Archive)
    (repo : Repo) (s : LegacyArchive) : (transferOne upg true repo s).1 = repo := by
  unfold transferOne
  split
  · rfl
  · cases h : upg s with
    | error e => rfl
    | ok arch => rfl

/-- A dry-run transfer leaves the destination repository unchanged. -/
theorem transfer_dry_fst (upg : LegacyArchive → Except String Archive)
    (repo : Repo) (srcs : List LegacyArchive) :
    (transfer upg true repo srcs).1 = repo := by
  induction srcs generalizing repo with
  | nil => rfl
  | cons s rest ih =>
    show (transfer upg true (transferOne upg true repo s).1 rest).1 = repo
    rw [transferOne_dry_fst, ih]

/-- An archive of the destination manifest after one transfer step is an
original archive or a successful output of the strategy. -/
theorem transferOne_manifest_mem {upg : LegacyArchive → Except String Archive}
    {dry : Bool} {repo : Repo} {s : LegacyArchive} {arch : Archive}
    (h : arch ∈ (transferOne upg dry repo s).1.manifest) :
    arch ∈ repo.manifest ∨ ∃ a, upg a = Except.ok arch := by
  unfold transferOne at h
  split at h
  · exact Or.inl h
  · revert h
    cases hu : upg s with
    | error e => exact fun h => Or.inl h
    | ok arch2 =>
      cases dry with
      | true => exact fun h => Or.inl h
      | false =>
        intro h
        have h2 : arch ∈ repo.manifest ++ [arch2] := h
        rcases List.mem_append.mp h2 with h3 | h3
        · exact Or.inl h3
        · have h4 := List.mem_singleton.mp h3
          subst h4
          exact Or.inr ⟨s, hu⟩

/-- An archive of the destination manifest after a transfer is an
original archive or a successful output of the strategy. -/
theorem transfer_manifest_mem {upg : LegacyArchive → Except String Archive}
    {dry : Bool} {repo : Repo} {srcs : List LegacyArchive} {arch : Archive}
    (h : arch ∈ (transfer upg dry repo srcs).1.manifest) :
    arch ∈ repo.manifest ∨ ∃ a, upg a = Except.ok arch := by
  induction srcs generalizing repo with
  | nil => exact Or.inl h
  | cons s rest ih =>
    have h2 : arch ∈ (transfer upg dry (transferOne upg dry repo s).1 rest).1.manifest := h
    rcases ih h2 with h3 | h3
    · exact transferOne_manifest_mem h3
    · exact Or.inr h3

/-- C1: after a transfer through the LegacyToCurrent (From12To20)
upgrader, every two items of the same archive with the same present
hlid have equal chunks and equal size; in particular, the two legacy
hardlink items of the concrete test archive (same inode, 17 bytes) both
end up with the same non-empty 256-bit (32-byte) hlid, identical chunk
lists, size 17 on both, and with no source, linktarget or
hardlink_master keys present on either item. -/
theorem c1_hardlink_symmetry :
    (∀ (off : Int) (a : LegacyArchive) (out : Archive),
        From12To20 off a = Except.ok out →
        ∀ x ∈ out.items, ∀ y ∈ out.items, ∀ hl, x.hlid = some hl → y.hlid = some hl →
          x.chunks = y.chunks ∧ x.size = y.size)
    ∧ From12To20 off12 legacyArchive1 = Except.ok demoOut
    ∧ (∃ hl, (demoItem 0).hlid = some hl ∧ (demoItem 1).hlid = some hl ∧
        hl.length = 32 ∧ hl ≠ [])
    ∧ (∃ cs, (demoItem 0).chunks = some cs ∧ (demoItem 1).chunks = some cs ∧ cs ≠ [])
    ∧ (demoItem 0).size = some 17 ∧ (demoItem 1).size = some 17
    ∧ "source" ∉ (demoItem 0).keys ∧ "source" ∉ (demoItem 1).keys
    ∧ "linktarget" ∉ (demoItem 0).keys ∧ "linktarget" ∉ (demoItem 1).keys
    ∧ "hardlink_master" ∉ (demoItem 0).keys ∧ "hardlink_master" ∉ (demoItem 1).keys := by
  refine ⟨?_, rfl,
    ⟨hlidOf "tmp/borgtest/hardlink1", by decide, by decide, by decide, by decide⟩,
    ⟨[⟨1, 17⟩], by decide, by decide, by decide⟩, by decide, by decide,
    by decide, by decide, by decide, by decide, by decide, by decide⟩
  intro off a out hok x hx y hy hl hxh hyh
  obtain ⟨its0, hm, hitems, hchk, _⟩ := From12To20_ok hok
  rw [hitems] at hx hy
  exact checkHardlinkConsistency_sound hchk x hx y hy hl hxh hyh

/-- Witness for C1: the universal part applied to the concrete upgraded
test archive and its two hardlink items. -/
theorem c1_hardlink_symmetry_witness :
    (demoItem 0).chunks = (demoItem 1).chunks ∧ (demoItem 0).size = (demoItem 1).size :=
  c1_hardlink_symmetry.1 off12 legacyArchive1 demoOut rfl
    (demoItem 0) (by decide) (demoItem 1) (by decide)
    (hlidOf "tmp/borgtest/hardlink1") (by decide) (by decide)

/-- C2: every item produced by a transfer, with or without upgrade,
whose chunks field is non-empty carries an explicit size equal to the
sum of the referenced chunk sizes (non-negative because sizes are
naturals); the engine commits only archives produced by the selected
strategy, and both strategies guarantee the invariant. -/
theorem c2_size_backfill :
    (∀ (off : Int) (a : LegacyArchive) (out : Archive),
        From12To20 off a = Except.ok out → ∀ it ∈ out.items, sizeInvariant it)
    ∧ (∀ (a out : Archive),
        identityUpgrade a = Except.ok out → ∀ it ∈ out.items, sizeInvariant it)
    ∧ (∀ (upg : LegacyArchive → Except String Archive) (dry : Bool) (repo : Repo)
          (srcs : List LegacyArchive) (arch : Archive),
        (∀ a out, upg a = Except.ok out → ∀ it ∈ out.items, sizeInvariant it) →
        arch ∈ (transfer upg dry repo srcs).1.manifest →
        arch ∈ repo.manifest ∨ ∀ it ∈ arch.items, sizeInvariant it) := by
  refine ⟨?_, ?_, ?_⟩
  · intro off a out hok it hit
    obtain ⟨its0, hm, hitems, _⟩ := From12To20_ok hok
    rw [hitems] at hit
    obtain ⟨x, hx, rfl⟩ := List.mem_map.mp hit
    exact sizeBackfill_invariant x
  · intro a out hok it hit
    rw [identityUpgrade_ok hok] at hit
    obtain ⟨x, hx, rfl⟩ := List.mem_map.mp hit
    exact sizeBackfill_invariant x
  · intro upg dry repo srcs arch hupg hmem
    rcases transfer_manifest_mem hmem with h | ⟨a, ha⟩
    · exact Or.inl h
    · exact Or.inr (hupg a arch ha)

/-- Witness for C2: the upgraded without_flags test item carries the
precomputed size of its single 5-byte chunk. -/
theorem c2_size_backfill_witness :
    (demoItem 2).size = some ((([⟨2, 5⟩] : List ChunkRef).map ChunkRef.csize).sum) :=
  c2_size_backfill.1 off12 legacyArchive1 demoOut rfl (demoItem 2) (by decide)
    [⟨2, 5⟩] (by decide) (by decide)

/-- C3: no attribute key of a stored item maps to a null/unknown value:
unknown information is represented only by the key being absent from
the dictionary form of the item. -/
theorem c3_no_null_values :
    ∀ (it : Item), ∀ kv ∈ it.as_dict, kv.2 ≠ DVal.null :=
  fun it kv h => as_dict_no_null it kv h

/-- Witness for C3 at a concrete entry of a concrete upgraded item. -/
theorem c3_no_null_values_witness :
    (("path", DVal.dstr "tmp/borgtest/hardlink1") : String × DVal).2 ≠ DVal.null :=
  c3_no_null_values (demoItem 0) ("path", DVal.dstr "tmp/borgtest/hardlink1") (by decide)

/-- C4: under the From12To20 upgrader, a legacy item whose bsdflags was
the sentinel zero is transformed into an item with no bsdflags key at
all, while a legacy item with bsdflags set to a nonzero value is
transformed into an item carrying exactly that value, with the key
present. -/
theorem c4_bsdflags_sentinel :
    ∀ (items : List LegacyItem) (off : Int) (it : LegacyItem) (o : Item),
      transformItem items off it = Except.ok o →
      (it.bsdflags = some 0 → o.bsdflags = none ∧ "bsdflags" ∉ o.keys)
      ∧ (∀ v, v ≠ 0 → it.bsdflags = some v → o.bsdflags = some v ∧ "bsdflags" ∈ o.keys) := by
  intro items off it o h
  obtain ⟨hl, ck, sz, sr, rfl⟩ := transformItem_ok_shape h
  constructor
  · intro h0
    have hb : convertFlags it.bsdflags = none := by rw [h0]; rfl
    exact ⟨hb, bsdflags_key_absent hb⟩
  · intro v hv hsome
    have hb : convertFlags it.bsdflags = some v := by
      rw [hsome]
      cases v with
      | zero => exact absurd rfl hv
      | succ n => rfl
    exact ⟨hb, bsdflags_key_present hb⟩

/-- Witness for C4: the concrete legacy item with sentinel zero
bsdflags loses the key under the per-item transformation. -/
theorem c4_bsdflags_sentinel_witness :
    withoutFlagsOut.bsdflags = none ∧ "bsdflags" ∉ withoutFlagsOut.keys :=
  (c4_bsdflags_sentinel [] off12 legacyWithoutFlags withoutFlagsOut rfl).1 (by decide)

/-- C5: the From12To20 upgrader converts item timestamps (mtime, ctime,
atime) and archive timestamps (start, time) from the naive local
representation plus a known UTC offset into the equivalent explicit UTC
instant with microsecond precision and explicit zero offset: the
converted timestamp denotes the same instant as the legacy local
reading parsed with the source timezone offset appended. -/
theorem c5_timestamp_normalization :
    (∀ (off naive : Int), (convertTs off naive).offset = 0 ∧
        (convertTs off naive).instant = (parse_timestamp naive off).instant)
    ∧ (∀ (off : Int) (a : LegacyArchive) (out : Archive),
        From12To20 off a = Except.ok out →
        out.start = convertTs off a.start ∧ out.time = convertTs off a.time ∧
        out.items.length = a.items.length ∧
        ∀ i (hi : i < a.items.length) (ho : i < out.items.length),
          (out.items.get ⟨i, ho⟩).mtime = ((a.items.get ⟨i, hi⟩).mtime.map (convertTs off)) ∧
          (out.items.get ⟨i, ho⟩).ctime = ((a.items.get ⟨i, hi⟩).ctime.map (convertTs off)) ∧
          (out.items.get ⟨i, ho⟩).atime = ((a.items.get ⟨i, hi⟩).atime.map (convertTs off))) := by
  constructor
  · intro off naive
    refine ⟨rfl, ?_⟩
    simp [convertTs, parse_timestamp, Timestamp.instant]
  · intro off a out hok
    obtain ⟨its0, hm, hitems, hchk, hstart, htime, _⟩ := From12To20_ok hok
    have hlen0 : its0.length = a.items.length := mapExcept_ok_length hm
    have hlen : out.items.length = a.items.length := by
      rw [hitems, List.length_map, hlen0]
    refine ⟨hstart, htime, hlen, ?_⟩
    intro i hi ho
    have hi0 : i < its0.length := hlen0 ▸ hi
    have hg := mapExcept_ok_get hm i hi hi0
    obtain ⟨hl, ck, sz, sr, hshape⟩ := transformItem_ok_shape hg
    obtain ⟨s2, hs2⟩ := sizeBackfill_shape (its0.get ⟨i, hi0⟩)
    have houti : out.items.get ⟨i, ho⟩ = sizeBackfill (its0.get ⟨i, hi0⟩) := by
      revert ho
      rw [hitems]
      intro ho2
      simp [List.get_eq_getElem, List.getElem_map]
    refine ⟨?_, ?_, ?_⟩ <;> (rw [houti, hs2, hshape]; rfl)

/-- Witness for C5: archive start and first-item mtime of the concrete
upgraded test archive. -/
theorem c5_timestamp_normalization_witness :
    demoOut.start = convertTs off12 legacyArchive1.start ∧
    (demoOut.items.get ⟨0, by decide⟩).mtime =
      ((legacyArchive1.items.get ⟨0, by decide⟩).mtime.map (convertTs off12)) :=
  ⟨(c5_timestamp_normalization.2 off12 legacyArchive1 demoOut rfl).1,
   ((c5_timestamp_normalization.2 off12 legacyArchive1 demoOut rfl).2.2.2
      0 (by decide) (by decide)).1⟩

/-- C6 counterexample: a legacy item with only numeric uid/gid 54321 and
no resolvable account name is transformed into a stored item whose user
and group are left unset (key absent), against the claim that they are
never left unset on the transformed item. -/
theorem c6_user_group_counterexample :
    (demoItem 6).uid = some 54321 ∧ (demoItem 6).gid = some 54321 ∧
    (demoItem 6).user = none ∧ (demoItem 6).group = none ∧
    "user" ∉ (demoItem 6).keys ∧ "group" ∉ (demoItem 6).keys :=
  ⟨by decide, by decide, by decide, by decide, by decide, by decide⟩

/-- C6 (amended): when a transformed item stores only a numeric uid/gid
and no account name, the string form of the numeric id is treated as
the known user/group value at the item formatting layer: the JSON
listing record carries it and it is never the null/unset marker; the
stored item itself leaves the user/group keys absent. -/
theorem c6_user_group_fallback :
    ∀ (it : Item) (n m : Nat), it.user = none → it.group = none →
      it.uid = some n → it.gid = some m →
      listingUser it = JVal.jstr (toString n) ∧
      listingGroup it = JVal.jstr (toString m) ∧
      ("user", JVal.jstr (toString n)) ∈ listingRecord it ∧
      ("group", JVal.jstr (toString m)) ∈ listingRecord it ∧
      JVal.jstr (toString n) ≠ JVal.null ∧ JVal.jstr (toString m) ≠ JVal.null := by
  intro it n m hu hg hn hm
  have h1 : listingUser it = JVal.jstr (toString n) := by
    unfold listingUser
    rw [hu, hn]
  have h2 : listingGroup it = JVal.jstr (toString m) := by
    unfold listingGroup
    rw [hg, hm]
  refine ⟨h1, h2, ?_, ?_, fun hc => JVal.noConfusion hc, fun hc => JVal.noConfusion hc⟩
  · rw [← h1]
    simp [listingRecord]
  · rw [← h2]
    simp [listingRecord]

/-- Witness for the amended C6 at the transformed strange_uid_gid
item. -/
theorem c6_user_group_fallback_witness :
    listingUser (demoItem 6) = JVal.jstr (toString (54321 : Nat)) ∧
    listingGroup (demoItem 6) = JVal.jstr (toString (54321 : Nat)) ∧
    ("user", JVal.jstr (toString (54321 : Nat))) ∈ listingRecord (demoItem 6) ∧
    ("group", JVal.jstr (toString (54321 : Nat))) ∈ listingRecord (demoItem 6) ∧
    JVal.jstr (toString (54321 : Nat)) ≠ JVal.null ∧
    JVal.jstr (toString (54321 : Nat)) ≠ JVal.null :=
  c6_user_group_fallback (demoItem 6) 54321 54321
    (by decide) (by decide) (by decide) (by decide)

/-- C7: the legacy item carrying only numeric uid 54321 and gid 54321
and no resolvable account name is transformed by the From12To20
upgrader into a stored item with uid 54321, gid 54321, and no user key
and no group key. -/
theorem c7_strange_uid_gid :
    From12To20 off12 legacyArchive1 = Except.ok demoOut ∧
    legacyStrangeUidGid ∈ legacyArchive1.items ∧
    legacyStrangeUidGid.uid = some 54321 ∧ legacyStrangeUidGid.gid = some 54321 ∧
    legacyStrangeUidGid.user = none ∧ legacyStrangeUidGid.group = none ∧
    (demoItem 6).path = legacyStrangeUidGid.path ∧
    (demoItem 6).uid = some 54321 ∧ (demoItem 6).gid = some 54321 ∧
    "user" ∉ (demoItem 6).keys ∧ "group" ∉ (demoItem 6).keys :=
  ⟨rfl, by decide, by decide, by decide, by decide, by decide, by decide,
   by decide, by decide, by decide, by decide⟩

/-- C8 counterexample: after a real transfer the transferred archive is
present in the destination, so a following dry run reports it as
skipped-existing: the report differs from the report of the dry run
before the real transfer, so the sequence dry-run, real transfer,
dry-run does not observe the same set of would-be changes at each dry
run. -/
theorem c8_dry_run_counterexample :
    (transfer (From12To20 off12) true ⟨[], []⟩ [legacyArchive1]).2 ≠
    (transfer (From12To20 off12) true
      (transfer (From12To20 off12) false ⟨[], []⟩ [legacyArchive1]).1
      [legacyArchive1]).2 := by
  decide

/-- C8 (amended): dry-run transfer is idempotent and side-effect-free:
a dry run leaves the destination repository, its manifest and its chunk
store byte-for-byte unchanged, and running the same dry run twice in
sequence returns the identical repository and the identical report. -/
theorem c8_dry_run_idempotent :
    ∀ (upg : LegacyArchive → Except String Archive) (repo : Repo)
      (srcs : List LegacyArchive),
      (transfer upg true repo srcs).1 = repo ∧
      transfer upg true (transfer upg true repo srcs).1 srcs =
        transfer upg true repo srcs := by
  intro upg repo srcs
  refine ⟨transfer_dry_fst upg repo srcs, ?_⟩
  rw [transfer_dry_fst upg repo srcs]

/-- C9 counterexample: the per-item JSON listing of an upgraded item
without bsdflags, hlid or source does not omit those attributes: it
emits flags as null and hlid and source as empty strings. -/
theorem c9_listing_counterexample :
    (demoItem 2).bsdflags = none ∧ ("flags", JVal.null) ∈ listingRecord (demoItem 2) ∧
    (demoItem 2).hlid = none ∧ ("hlid", JVal.jstr "") ∈ listingRecord (demoItem 2) ∧
    (demoItem 2).source = none ∧ ("source", JVal.jstr "") ∈ listingRecord (demoItem 2) :=
  ⟨by decide, by decide, by decide, by decide, by decide, by decide⟩

/-- C9 (amended): the per-item JSON listing emits printability
placeholders for absent attributes: null for absent bsdflags and the
empty string for absent hlid, source and linktarget, while a present
attribute is emitted with its value; key omission for absent attributes
holds of the stored dictionary form of the item, whose values are never
null. -/
theorem c9_listing_placeholders :
    ∀ (it : Item),
      (it.bsdflags = none → ("flags", JVal.null) ∈ listingRecord it) ∧
      (∀ v, it.bsdflags = some v → ("flags", JVal.jint v) ∈ listingRecord it) ∧
      (it.hlid = none → ("hlid", JVal.jstr "") ∈ listingRecord it) ∧
      (it.source = none → ("source", JVal.jstr "") ∈ listingRecord it ∧
          ("linktarget", JVal.jstr "") ∈ listingRecord it) ∧
      (∀ kv ∈ it.as_dict, kv.2 ≠ DVal.null) := by
  intro it
  refine ⟨?_, ?_, ?_, ?_, as_dict_no_null it⟩
  · intro h
    simp [listingRecord, h]
  · intro v h
    simp [listingRecord, h]
  · intro h
    simp [listingRecord, hlidText, h]
  · intro h
    constructor <;> simp [listingRecord, h]

/-- Witness for the amended C9 at the upgraded without_flags item. -/
theorem c9_listing_placeholders_witness :
    ("flags", JVal.null) ∈ listingRecord (demoItem 2) :=
  (c9_listing_placeholders (demoItem 2)).1 (by decide)

/-- C10: the From12To20 upgrader preserves xattrs exactly: the per-item
transformation and the size backfill leave the xattrs mapping
untouched; in the concrete test archive, the item archived without
xattrs has no xattrs key after transfer, and the item archived with
xattrs keeps both name-to-value pairs, including the pair whose value
is the empty byte string. -/
theorem c10_xattr_preservation :
    (∀ (items : List LegacyItem) (off : Int) (it : LegacyItem) (o : Item),
        transformItem items off it = Except.ok o → o.xattrs = it.xattrs)
    ∧ (∀ x : Item, (sizeBackfill x).xattrs = x.xattrs)
    ∧ (demoItem 4).xattrs = none ∧ "xattrs" ∉ (demoItem 4).keys
    ∧ (demoItem 5).xattrs = some [([107, 101, 121, 49], [118, 97, 108, 117, 101]),
                                  ([107, 101, 121, 50], [])]
    ∧ legacyWithXattrs.xattrs = (demoItem 5).xattrs := by
  refine ⟨?_, ?_, by decide, by decide, by decide, by decide⟩
  · intro items off it o h
    obtain ⟨hl, ck, sz, sr, rfl⟩ := transformItem_ok_shape h
    rfl
  · intro x
    obtain ⟨s, hs⟩ := sizeBackfill_shape x
    rw [hs]

/-- Witness for C10: the per-item transformation of the concrete item
archived with xattrs keeps its xattrs exactly. -/
theorem c10_xattr_preservation_witness :
    ((transformItem [] off12 legacyWithXattrs).toOption.getD default).xattrs =
      legacyWithXattrs.xattrs :=
  c10_xattr_preservation.1 [] off12 legacyWithXattrs
    ((transformItem [] off12 legacyWithXattrs).toOption.getD default) rfl

end Borg
